import Mathlib

/-!
Verification development for the youtube-backend Django application.

The Django models, serializers and views are shallowly embedded as pure Lean
functions over an explicit store (a list of `Video` rows).  Machine-level
details that the verified claims do not touch (HTTP parsing, the ORM
connection, file-system paths) are dropped; every function below mirrors the
control flow of the corresponding Python function in
`api/views.py`, `api/serializers.py`, `api/models.py` and
`youtube_bff/settings.py`.

Django's `Meta.ordering = ['-upload_date']` and explicit `order_by` calls are
modelled by a stable insertion sort on the relevant key; query-set `filter` /
`exclude` chains become `List.filter`; slicing `[:n]` becomes `List.take`.
Timestamps are seconds as `Nat`.
-/

namespace YoutubeApi

/-- An uploaded file as the validators see it: the client-supplied
filename and the byte size. -/
structure UploadedFile where
  name : String
  size : Nat
deriving DecidableEq

/-- A row of the `Video` table (`api/models.py`, class `Video`).  The
`channel` and `category` foreign keys are denormalised into the id / name /
slug fields actually consulted by the views.  `status` is the literal status
string (`draft`, `processing`, `published`, `private`, `unlisted`). -/
structure Video where
  id : Nat
  title : String
  description : String
  channelId : Nat
  channelName : String
  categoryId : Option Nat
  categorySlug : Option String
  status : String
  views : Nat
  uploadDate : Nat
  publishedDate : Option Nat
  videoFile : Option UploadedFile
  thumbnailFile : Option UploadedFile
  fileSize : Nat
deriving DecidableEq

/-- Result of the single-video endpoint `get_video_data`. -/
inductive ApiResult where
  | ok (v : Video)
  | notFound
deriving DecidableEq

/-- Result of the list-returning endpoints (`get_my_videos`,
`search_videos`, `get_recommended_videos`): a 200 payload, a 400
"required parameter missing" error, or a 404. -/
inductive ListResult where
  | ok (vs : List Video)
  | badRequest
  | notFound
deriving DecidableEq

/-- ASCII lowercase of a string, Python `str.lower` on the ASCII range. -/
def strLower (s : String) : String := String.mk (s.data.map Char.toLower)

/-- `needle` occurs contiguously inside the second list: Python `in` on
strings, viewed as lists of characters. -/
def hasInfix [DecidableEq α] (needle : List α) : List α → Bool
  | [] => needle.isEmpty
  | c :: rest => needle.isPrefixOf (c :: rest) || hasInfix needle rest

/-- Django `__icontains`: case-insensitive containment. -/
def icontains (hay needle : String) : Bool :=
  hasInfix (strLower needle).data (strLower hay).data

/-- Ordering key for `Meta.ordering = ['-upload_date']` and
`order_by('-upload_date')`: descending upload date. -/
def uploadDesc (a b : Video) : Prop := b.uploadDate ≤ a.uploadDate

instance : DecidableRel uploadDesc := fun a b => Nat.decLe b.uploadDate a.uploadDate

instance : IsTotal Video uploadDesc := ⟨fun a b => (Nat.le_total a.uploadDate b.uploadDate).symm⟩

instance : IsTrans Video uploadDesc := ⟨fun _ _ _ hab hbc => Nat.le_trans hbc hab⟩

/-- Ordering key for `order_by('-views')`: descending view count. -/
def viewsDesc (a b : Video) : Prop := b.views ≤ a.views

instance : DecidableRel viewsDesc := fun a b => Nat.decLe b.views a.views

instance : IsTotal Video viewsDesc := ⟨fun a b => (Nat.le_total a.views b.views).symm⟩

instance : IsTrans Video viewsDesc := ⟨fun _ _ _ hab hbc => Nat.le_trans hbc hab⟩

/-- The rows of a query set ordered by `-upload_date`. -/
def orderUploadDesc (vs : List Video) : List Video := List.insertionSort uploadDesc vs

/-- The rows of a query set ordered by `-views`. -/
def orderViewsDesc (vs : List Video) : List Video := List.insertionSort viewsDesc vs

/-- `settings.MAX_VIDEO_SIZE = 500 * 1024 * 1024` (bytes). -/
def MAX_VIDEO_SIZE : Nat := 500 * 1024 * 1024

/-- `settings.ALLOWED_VIDEO_EXTENSIONS`. -/
def ALLOWED_VIDEO_EXTENSIONS : List String := [".mp4", ".avi", ".mov", ".wmv", ".flv", ".webm"]

/-- `settings.ALLOWED_IMAGE_EXTENSIONS`. -/
def ALLOWED_IMAGE_EXTENSIONS : List String := [".jpg", ".jpeg", ".png", ".gif", ".webp"]

/-- Index of the last `'.'` in a character list, if any. -/
def lastDotIdx (cs : List Char) : Option Nat :=
  (List.range cs.length).foldl (fun acc i => if cs.getD i ' ' = '.' then some i else acc) none

/-- The extension part of `os.path.splitext`: the suffix starting at the last
dot of the basename, empty when there is no dot or when every character
before that dot is itself a dot (so a leading-dot name like `.bashrc` has no
extension). -/
def splitextExt (p : String) : String :=
  let b := ((p.splitOn "/").getLastD p).data
  match lastDotIdx b with
  | none => ""
  | some i => if (b.take i).any (fun c => c ≠ '.') then String.mk (b.drop i) else ""

/-- `VideoUploadSerializer.validate_video_file`: `none` on success, the
raised `ValidationError` message otherwise.  Python renders
`settings.MAX_VIDEO_SIZE / (1024 * 1024)` as the float `500.0` in the
size message. -/
def validate_video_file (value : UploadedFile) : Option String :=
  if value.size > MAX_VIDEO_SIZE then
    some "Video file too large. Maximum size is 500.0MB."
  else
    let ext := strLower (splitextExt value.name)
    if !(ALLOWED_VIDEO_EXTENSIONS.contains ext) then
      some ("Unsupported video format. Allowed formats: " ++
        String.intercalate ", " ALLOWED_VIDEO_EXTENSIONS)
    else
      none

/-- `VideoUploadSerializer.validate_thumbnail_file` for a provided file. -/
def validate_thumbnail_file (value : UploadedFile) : Option String :=
  if value.size > 10 * 1024 * 1024 then
    some "Thumbnail file too large. Maximum size is 10MB."
  else
    let ext := strLower (splitextExt value.name)
    if !(ALLOWED_IMAGE_EXTENSIONS.contains ext) then
      some ("Unsupported image format. Allowed formats: " ++
        String.intercalate ", " ALLOWED_IMAGE_EXTENSIONS)
    else
      none

/-- The multipart form data of an upload request.  `title`, `video_file` and
`channel` are required by `VideoUploadSerializer`; a `none` models a missing
field. -/
structure UploadRequest where
  title : Option String
  description : Option String
  videoFile : Option UploadedFile
  thumbnailFile : Option UploadedFile
  category : Option Nat
  channel : Option Nat
  isShorts : Bool
deriving DecidableEq

/-- DRF's message for a missing required field. -/
def requiredMsg : String := "This field is required."

/-- The field-keyed error report produced by `serializer.is_valid()`:
requiredness of `title`, `video_file`, `channel`, plus the two custom
`validate_*` hooks.  The serializer is valid iff this list is empty. -/
def uploadValidate (r : UploadRequest) : List (String × String) :=
  (match r.title with
    | none => [("title", requiredMsg)]
    | some _ => []) ++
  (match r.videoFile with
    | none => [("video_file", requiredMsg)]
    | some f =>
      match validate_video_file f with
      | some msg => [("video_file", msg)]
      | none => []) ++
  (match r.thumbnailFile with
    | none => []
    | some f =>
      match validate_thumbnail_file f with
      | some msg => [("thumbnail_file", msg)]
      | none => []) ++
  (match r.channel with
    | none => [("channel", requiredMsg)]
    | some _ => [])

/-- `Video.save` (`api/models.py`): copy the blob size into `file_size` when
unset, and stamp `published_date` the first time the row is saved with
status `published` while `published_date` is still null. -/
def videoSave (now : Nat) (v : Video) : Video :=
  let v1 :=
    match v.videoFile with
    | some f => if v.fileSize = 0 then { v with fileSize := f.size } else v
    | none => v
  if v1.status = "published" ∧ v1.publishedDate = none then
    { v1 with publishedDate := some now }
  else
    v1

/-- `VideoUploadSerializer.create`: create the row with status forced to
`processing`, then immediately mark it `published` and save again. -/
def serializerCreate (now nextId : Nat) (r : UploadRequest) : Video :=
  let v0 : Video :=
    { id := nextId
      title := r.title.getD ""
      description := r.description.getD ""
      channelId := r.channel.getD 0
      channelName := ""
      categoryId := r.category
      categorySlug := none
      status := "processing"
      views := 0
      uploadDate := now
      publishedDate := none
      videoFile := r.videoFile
      thumbnailFile := r.thumbnailFile
      fileSize := 0 }
  let v1 := videoSave now v0
  videoSave now { v1 with status := "published" }

/-- The persistent state the upload endpoint touches: the `Video` table and
the blob store (media files), identified by stored file names. -/
structure ServerState where
  videos : List Video
  blobs : List String
deriving DecidableEq

/-- Response of the upload endpoint: HTTP 201 with the created row, or
HTTP 400 with the serializer's field-keyed error report. -/
inductive UploadResponse where
  | created (v : Video)
  | validationError (errors : List (String × String))
deriving DecidableEq

/-- `upload_video` (`api/views.py`): run the serializer; on success persist
the row and the uploaded blobs, otherwise return 400 and persist nothing. -/
def upload_video (st : ServerState) (now nextId : Nat) (r : UploadRequest) :
    ServerState × UploadResponse :=
  let errs := uploadValidate r
  if errs.isEmpty then
    let v := serializerCreate now nextId r
    let blobs := st.blobs ++
      (match r.videoFile with | some f => [f.name] | none => []) ++
      (match r.thumbnailFile with | some f => [f.name] | none => [])
    ({ videos := st.videos ++ [v], blobs := blobs }, .created v)
  else
    (st, .validationError errs)

/-- `get_videos` (`api/views.py`): published rows, optional category filter
(skipped when the parameter is absent, empty, or any-case `all`), optional
search filter over title / description / channel name, truncated to
`limit`. -/
def matchesSearch (q : String) (v : Video) : Bool :=
  icontains v.title q || icontains v.description q || icontains v.channelName q

def get_videos (store : List Video) (category search : Option String) (limit : Nat) :
    List Video :=
  let base : List Video := (orderUploadDesc store).filter (fun v => v.status == "published")
  let afterCat : List Video :=
    match category with
    | some c =>
      if c ≠ "" ∧ strLower c ≠ "all" then
        base.filter (fun v => v.categorySlug == some c)
      else base
    | none => base
  let afterSearch : List Video :=
    match search with
    | some q => if q ≠ "" then afterCat.filter (matchesSearch q) else afterCat
    | none => afterCat
  afterSearch.take limit

/-- `get_video_data` (`api/views.py`).  With an id: fetch the published row,
bump its stored view counter by one (`update_fields=['views']`) and return
it; 404 when no published row has that id.  Without an id: return the first
published row in the default `-upload_date` ordering, touching nothing. -/
def get_video_data (store : List Video) (videoId : Option Nat) :
    List Video × ApiResult :=
  match videoId with
  | some i =>
    match store.find? (fun v => v.id == i && v.status == "published") with
    | some v =>
      let bumped := v.views + 1
      (store.map (fun w => if w.id == v.id then { w with views := bumped } else w),
        .ok { v with views := bumped })
    | none => (store, .notFound)
  | none =>
    match ((orderUploadDesc store).filter (fun v => v.status == "published")).head? with
    | some v => (store, .ok v)
    | none => (store, .notFound)

/-- `get_my_videos` (`api/views.py`): 400 without a channel parameter,
otherwise every row of that channel (any status), newest first. -/
def get_my_videos (store : List Video) (channelId : Option Nat) : ListResult :=
  match channelId with
  | none => .badRequest
  | some c => .ok (orderUploadDesc (store.filter (fun v => v.channelId == c)))

/-- `search_videos` (`api/views.py`): 400 on an empty query, otherwise the
first 20 rows matching title / description / channel name.  Note: no
status filter. -/
def search_videos (store : List Video) (q : String) : ListResult :=
  if q == "" then .badRequest
  else .ok (((orderUploadDesc store).filter (matchesSearch q)).take 20)

/-- Recommendation tier 1: published rows of the source's category,
excluding the source, by descending views, at most 5. -/
def tier1 (store : List Video) (cur : Video) (videoId : Nat) : List Video :=
  (orderViewsDesc (store.filter (fun v =>
    v.categoryId == cur.categoryId && v.status == "published" && !(v.id == videoId)))).take 5

/-- Recommendation tier 2: published rows not already picked and not the
source, by descending views, at most `k`. -/
def tier2 (store : List Video) (videoId : Nat) (sofar : List Video) (k : Nat) :
    List Video :=
  (orderViewsDesc (store.filter (fun v =>
    v.status == "published" && !((sofar.map Video.id).contains v.id) &&
      !(v.id == videoId)))).take k

/-- Recommendation tier 3: published rows not already picked and not the
source, newest first, at most `k`. -/
def tier3 (store : List Video) (videoId : Nat) (sofar : List Video) (k : Nat) :
    List Video :=
  (orderUploadDesc (store.filter (fun v =>
    v.status == "published" && !((sofar.map Video.id).contains v.id) &&
      !(v.id == videoId)))).take k

/-- `get_recommended_videos` (`api/views.py`): 404 unless a published row
has the requested id, otherwise tier 1 topped up by tier 2 and then tier 3
to at most 10 entries. -/
def get_recommended_videos (store : List Video) (videoId : Nat) : ListResult :=
  match store.find? (fun v => v.id == videoId && v.status == "published") with
  | none => .notFound
  | some cur =>
    let r1 := tier1 store cur videoId
    let r2 := if r1.length < 10 then r1 ++ tier2 store videoId r1 (10 - r1.length) else r1
    let r3 := if r2.length < 10 then r2 ++ tier3 store videoId r2 (10 - r2.length) else r2
    .ok r3

/-- `Video.uploaded_display` (`api/models.py`), with `now` and the upload
date as second timestamps.  `days` and `secs` mirror Python's
`timedelta.days` and `timedelta.seconds`. -/
def uploaded_display (now upload_date : Nat) : String :=
  let diffSecs := now - upload_date
  let days := diffSecs / 86400
  let secs := diffSecs % 86400
  if days = 0 then
    let hours := secs / 3600
    if hours = 0 then
      let minutes := secs / 60
      if minutes > 1 then s!"{minutes} minutes ago" else "1 minute ago"
    else
      if hours > 1 then s!"{hours} hours ago" else "1 hour ago"
  else if days < 7 then
    if days > 1 then s!"{days} days ago" else "1 day ago"
  else if days < 30 then
    let weeks := days / 7
    if weeks > 1 then s!"{weeks} weeks ago" else "1 week ago"
  else if days < 365 then
    let months := days / 30
    if months > 1 then s!"{months} months ago" else "1 month ago"
  else
    let years := days / 365
    if years > 1 then s!"{years} years ago" else "1 year ago"

/-- The relative-time display as the specification describes it, with the
singular/plural rule amended to what the code implements: the unit is chosen
by the thresholds <1 hour, <1 day, <7 days, <30 days, <365 days, else years;
the wording is plural exactly when the computed unit count exceeds 1, and
otherwise the singular form `1 <unit> ago` is shown (also for a minute count
of 0). -/
def uploadedDisplaySpec (now upload_date : Nat) : String :=
  let d := now - upload_date
  let days := d / 86400
  if d < 3600 then
    let m := d / 60
    if m > 1 then s!"{m} minutes ago" else "1 minute ago"
  else if d < 86400 then
    let hrs := d / 3600
    if hrs > 1 then s!"{hrs} hours ago" else "1 hour ago"
  else if days < 7 then
    if days > 1 then s!"{days} days ago" else "1 day ago"
  else if days < 30 then
    let weeks := days / 7
    if weeks > 1 then s!"{weeks} weeks ago" else "1 week ago"
  else if days < 365 then
    let months := days / 30
    if months > 1 then s!"{months} months ago" else "1 month ago"
  else
    let years := days / 365
    if years > 1 then s!"{years} years ago" else "1 year ago"

/-- The store after calling the detail endpoint `n` times in sequence on the
same id. -/
def detailN (i : Nat) : Nat → List Video → List Video
  | 0, st => st
  | n + 1, st => (get_video_data (detailN i n st) (some i)).1

/-- The store with the views of the row with id `i` raised by `n`. -/
def bumpViews (i n : Nat) (st : List Video) : List Video :=
  st.map (fun w => if w.id = i then { w with views := w.views + n } else w)

/-- A sequence of saves of one row: each event assigns a status and saves at
a time, as `Video.save` does. -/
def statusSaveTrace (v : Video) (evs : List (String × Nat)) : Video :=
  evs.foldl (fun acc e => videoSave e.2 { acc with status := e.1 }) v

/-! Concrete sample rows, used to evaluate the verified statements on
closed inputs. -/

def baseVideo : Video :=
  { id := 0, title := "t", description := "", channelId := 1, channelName := "chan",
    categoryId := none, categorySlug := none, status := "published", views := 0,
    uploadDate := 0, publishedDate := none, videoFile := none, thumbnailFile := none,
    fileSize := 0 }

def vidA : Video :=
  { baseVideo with
    id := 1
    title := "alpha"
    uploadDate := 10
    views := 100
    categoryId := some 1 }

def vidB : Video :=
  { baseVideo with
    id := 2
    title := "beta"
    uploadDate := 20
    views := 50
    categoryId := some 1 }

def vidC : Video :=
  { baseVideo with
    id := 3
    title := "gamma"
    status := "draft"
    uploadDate := 30
    views := 999
    categoryId := some 1 }

def vidD : Video :=
  { baseVideo with
    id := 4
    title := "delta"
    uploadDate := 5
    views := 7
    categoryId := some 2
    channelId := 2 }

def demoStore : List Video := [vidA, vidB, vidC, vidD]

/-- A sequence of save events for exercising the published-date rule. -/
def saveEvents : List (String × Nat) :=
  [("draft", 1), ("published", 4), ("private", 6), ("published", 9)]

/-- A draft row whose title matches the query "cats". -/
def draftVideo : Video :=
  { baseVideo with
    id := 9
    title := "cats compilation"
    status := "draft" }

/-- An upload request that is missing its required title. -/
def noTitleRequest : UploadRequest :=
  { title := none, description := none, videoFile := some ⟨"clip.mp4", 10⟩,
    thumbnailFile := none, category := none, channel := some 1, isShorts := false }

/-- A complete, valid upload request. -/
def validRequest : UploadRequest :=
  { title := some "my clip", description := some "d", videoFile := some ⟨"clip.mp4", 10⟩,
    thumbnailFile := none, category := some 1, channel := some 1, isShorts := false }

/-! ## Helper lemmas -/

theorem mem_orderUploadDesc {v : Video} {l : List Video} :
    v ∈ orderUploadDesc l ↔ v ∈ l :=
  (List.perm_insertionSort uploadDesc l).mem_iff

theorem mem_orderViewsDesc {v : Video} {l : List Video} :
    v ∈ orderViewsDesc l ↔ v ∈ l :=
  (List.perm_insertionSort viewsDesc l).mem_iff

theorem mem_of_mem_take {v : Video} {n : Nat} {l : List Video} (h : v ∈ l.take n) :
    v ∈ l :=
  (List.take_sublist n l).subset h

/-! ## Claim theorems -/

/-- C8: listing with a category parameter that is any case variant of
`all` returns exactly the same result as listing with the category
parameter omitted, for every store, search parameter and limit. -/
theorem get_videos_category_all (store : List Video) (s : String)
    (search : Option String) (limit : Nat) (h : strLower s = "all") :
    get_videos store (some s) search limit = get_videos store none search limit := by
  have hc : ¬(s ≠ "" ∧ strLower s ≠ "all") := fun hand => hand.2 h
  simp only [get_videos]
  rw [if_neg hc]

theorem get_videos_category_all_witness :
    get_videos demoStore (some "ALL") none 20 = get_videos demoStore none none 20 :=
  get_videos_category_all demoStore "ALL" none 20 (by decide)

/-- C9: the detail endpoint called without an id returns the head of the
published rows in the default `-upload_date` ordering — a published video
whose upload date is maximal among published rows — and leaves the store,
hence every view counter, unchanged. -/
theorem get_video_data_featured (store : List Video) (v : Video)
    (h : ((orderUploadDesc store).filter (fun w => w.status == "published")).head? =
      some v) :
    get_video_data store none = (store, .ok v) ∧ v.status = "published" ∧
      ∀ w ∈ store, w.status = "published" → w.uploadDate ≤ v.uploadDate := by
  refine ⟨?_, ?_, ?_⟩
  · simp only [get_video_data]
    rw [h]
  · have hv : v ∈ (orderUploadDesc store).filter (fun w => w.status == "published") :=
      List.mem_of_mem_head? (by simp [h])
    simpa using List.of_mem_filter hv
  · intro w hw hwp
    have hsorted : List.Pairwise uploadDesc (orderUploadDesc store) :=
      List.sorted_insertionSort uploadDesc store
    have hsf : List.Pairwise uploadDesc
        ((orderUploadDesc store).filter (fun w => w.status == "published")) :=
      List.Pairwise.sublist (List.filter_sublist _) hsorted
    have hwmem : w ∈ (orderUploadDesc store).filter (fun w => w.status == "published") :=
      List.mem_filter.mpr ⟨mem_orderUploadDesc.mpr hw, by simp [hwp]⟩
    obtain ⟨t, ht⟩ : ∃ t,
        (orderUploadDesc store).filter (fun w => w.status == "published") = v :: t := by
      cases hl : (orderUploadDesc store).filter (fun w => w.status == "published") with
      | nil => rw [hl] at h; simp at h
      | cons a t =>
        rw [hl] at h
        simp only [List.head?_cons, Option.some.injEq] at h
        exact ⟨t, by rw [h]⟩
    rw [ht] at hwmem hsf
    rcases List.mem_cons.mp hwmem with rfl | hwt
    · exact Nat.le_refl _
    · exact (List.pairwise_cons.mp hsf).1 w hwt

theorem get_video_data_featured_witness :
    get_video_data demoStore none = (demoStore, .ok vidB) ∧ vidB.status = "published" ∧
      ∀ w ∈ demoStore, w.status = "published" → w.uploadDate ≤ vidB.uploadDate :=
  get_video_data_featured demoStore vidB (by decide)

/-- C10: `get_my_videos` answers 400 when the channel parameter is missing,
and otherwise returns exactly the rows of that channel — whatever their
status — ordered by descending upload date. -/
theorem get_my_videos_spec (store : List Video) :
    get_my_videos store none = .badRequest ∧
    ∀ c, ∃ l, get_my_videos store (some c) = .ok l ∧
      (∀ v, v ∈ l ↔ v ∈ store ∧ v.channelId = c) ∧
      List.Pairwise (fun a b => b.uploadDate ≤ a.uploadDate) l := by
  refine ⟨rfl, fun c => ⟨_, rfl, ?_, ?_⟩⟩
  · intro v
    constructor
    · intro hv
      have hm := mem_orderUploadDesc.mp hv
      rw [List.mem_filter] at hm
      exact ⟨hm.1, by simpa using hm.2⟩
    · rintro ⟨hv, hc⟩
      exact mem_orderUploadDesc.mpr (List.mem_filter.mpr ⟨hv, by simp [hc]⟩)
  · exact List.sorted_insertionSort uploadDesc _

theorem get_my_videos_spec_witness :
    get_my_videos demoStore none = .badRequest ∧
    ∀ c, ∃ l, get_my_videos demoStore (some c) = .ok l ∧
      (∀ v, v ∈ l ↔ v ∈ demoStore ∧ v.channelId = c) ∧
      List.Pairwise (fun a b => b.uploadDate ≤ a.uploadDate) l :=
  get_my_videos_spec demoStore

/-- C5: the upload validator accepts a video file iff its size is at most
`MAX_VIDEO_SIZE` (500 MB) and the lowercased extension of its filename is in
`ALLOWED_VIDEO_EXTENSIONS`; an oversized file fails with the message naming
the configured limit in MB, and a wrong extension fails with the message
naming the allowed set. -/
theorem validate_video_file_spec (f : UploadedFile) :
    (validate_video_file f = none ↔
      f.size ≤ MAX_VIDEO_SIZE ∧ strLower (splitextExt f.name) ∈ ALLOWED_VIDEO_EXTENSIONS) ∧
    (MAX_VIDEO_SIZE < f.size →
      validate_video_file f = some "Video file too large. Maximum size is 500.0MB.") ∧
    (f.size ≤ MAX_VIDEO_SIZE → strLower (splitextExt f.name) ∉ ALLOWED_VIDEO_EXTENSIONS →
      validate_video_file f = some
        "Unsupported video format. Allowed formats: .mp4, .avi, .mov, .wmv, .flv, .webm") := by
  unfold validate_video_file
  by_cases hs : f.size > MAX_VIDEO_SIZE
  · rw [if_pos hs]
    exact ⟨⟨(fun h => Option.noConfusion h), (fun hand => absurd hand.1 (by omega))⟩,
      (fun _ => rfl), (fun hle _ => absurd hs (by omega))⟩
  · rw [if_neg hs]
    by_cases he : strLower (splitextExt f.name) ∈ ALLOWED_VIDEO_EXTENSIONS
    · rw [if_neg (by simp [he])]
      exact ⟨⟨(fun _ => ⟨by omega, he⟩), (fun _ => rfl)⟩,
        (fun hlt => absurd hlt (by omega)), (fun _ hne => absurd he hne)⟩
    · rw [if_pos (by simp [he])]
      refine ⟨⟨(fun h => Option.noConfusion h), (fun hand => absurd hand.2 he)⟩,
        (fun hlt => absurd hlt (by omega)), (fun _ _ => ?_)⟩
      rfl

theorem validate_video_file_spec_witness :
    validate_video_file ⟨"big.mp4", 629145600⟩ =
      some "Video file too large. Maximum size is 500.0MB." :=
  (validate_video_file_spec ⟨"big.mp4", 629145600⟩).2.1 (by decide)

/-- C7 counterexample: 30 seconds after upload the computed minute count is
`0`, which is not `1`, yet the display is the singular "1 minute ago" rather
than a plural wording. -/
theorem uploaded_display_zero_minutes :
    (30 - 0) % 86400 / 60 ≠ 1 ∧ uploaded_display 30 0 = "1 minute ago" := by
  exact ⟨by decide, by decide⟩

/-- C7 (amended): the display picks its unit by the thresholds <1 hour →
minutes, <1 day → hours, <7 days → days, <30 days → weeks (`days/7`),
<365 days → months (`days/30`), else years (`days/365`), and the wording is
singular exactly when the computed unit count is at most 1 (a minute count
of 0 is shown as "1 minute ago"), plural otherwise. -/
theorem uploaded_display_eq_spec (now upload_date : Nat) :
    uploaded_display now upload_date = uploadedDisplaySpec now upload_date := by
  unfold uploaded_display uploadedDisplaySpec
  by_cases h1 : now - upload_date < 3600
  · have e0 : (now - upload_date) / 86400 = 0 := by omega
    have e1 : (now - upload_date) % 86400 = now - upload_date := by omega
    have e2 : (now - upload_date) / 3600 = 0 := by omega
    simp [e0, e1, e2, h1]
  · by_cases h2 : now - upload_date < 86400
    · have e0 : (now - upload_date) / 86400 = 0 := by omega
      have e1 : (now - upload_date) % 86400 = now - upload_date := by omega
      have e2 : ¬((now - upload_date) / 3600 = 0) := by omega
      simp [e0, e1, e2, h1, h2]
    · have e0 : ¬((now - upload_date) / 86400 = 0) := by omega
      simp [e0, h1, h2]

/-- C4: an upload request with a missing required field or an invalid video
or thumbnail file yields the 400 response carrying the field-keyed error
report, and both the Video table and the blob store are unchanged. -/
theorem upload_video_invalid (st : ServerState) (now nextId : Nat) (r : UploadRequest)
    (h : r.title = none ∨ r.channel = none ∨ r.videoFile = none ∨
      (∃ f msg, r.videoFile = some f ∧ validate_video_file f = some msg) ∨
      (∃ f msg, r.thumbnailFile = some f ∧ validate_thumbnail_file f = some msg)) :
    upload_video st now nextId r = (st, .validationError (uploadValidate r)) ∧
      uploadValidate r ≠ [] := by
  have hne : uploadValidate r ≠ [] := by
    rcases h with h | h | h | hex | hex
    · simp [uploadValidate, h, List.append_eq_nil]
    · simp [uploadValidate, h, List.append_eq_nil]
    · simp [uploadValidate, h, List.append_eq_nil]
    · obtain ⟨f, msg, hf, hv⟩ := hex
      simp [uploadValidate, hf, hv, List.append_eq_nil]
    · obtain ⟨f, msg, hf, hv⟩ := hex
      simp [uploadValidate, hf, hv, List.append_eq_nil]
  refine ⟨?_, hne⟩
  simp only [upload_video]
  rw [if_neg (by simp only [List.isEmpty_iff]; exact hne)]

theorem upload_video_invalid_witness :
    upload_video ⟨[], []⟩ 7 3 noTitleRequest =
      (⟨[], []⟩, .validationError (uploadValidate noTitleRequest)) ∧
      uploadValidate noTitleRequest ≠ [] :=
  upload_video_invalid ⟨[], []⟩ 7 3 noTitleRequest (Or.inl rfl)

theorem published_of_mem_get_videos {store : List Video} {cat search : Option String}
    {lim : Nat} {v : Video} (hv : v ∈ get_videos store cat search lim) :
    v.status = "published" := by
  rcases cat with _ | c <;> rcases search with _ | q <;>
    simp only [get_videos] at hv <;>
    replace hv := mem_of_mem_take hv
  all_goals try split_ifs at hv
  all_goals simp only [List.mem_filter] at hv
  all_goals simp_all

theorem tier1_pred {store : List Video} {cur : Video} {i : Nat} {v : Video}
    (h : v ∈ tier1 store cur i) :
    v.categoryId = cur.categoryId ∧ v.status = "published" ∧ v.id ≠ i := by
  have h2 := List.of_mem_filter (mem_orderViewsDesc.mp (mem_of_mem_take h))
  simp at h2
  exact ⟨h2.1.1, h2.1.2, h2.2⟩

theorem tier2_pred {store : List Video} {i : Nat} {sofar : List Video} {k : Nat}
    {v : Video} (h : v ∈ tier2 store i sofar k) :
    v.status = "published" ∧ v.id ∉ sofar.map Video.id ∧ v.id ≠ i := by
  have h2 := List.of_mem_filter (mem_orderViewsDesc.mp (mem_of_mem_take h))
  simp at h2
  refine ⟨h2.1.1, ?_, h2.2⟩
  intro hmem
  obtain ⟨x, hx, hxe⟩ := List.mem_map.mp hmem
  exact h2.1.2 x hx hxe

theorem tier3_pred {store : List Video} {i : Nat} {sofar : List Video} {k : Nat}
    {v : Video} (h : v ∈ tier3 store i sofar k) :
    v.status = "published" ∧ v.id ∉ sofar.map Video.id ∧ v.id ≠ i := by
  have h2 := List.of_mem_filter (mem_orderUploadDesc.mp (mem_of_mem_take h))
  simp at h2
  refine ⟨h2.1.1, ?_, h2.2⟩
  intro hmem
  obtain ⟨x, hx, hxe⟩ := List.mem_map.mp hmem
  exact h2.1.2 x hx hxe

/-- C1 (amended): the list, detail and recommended operations only ever
return videos with status `published` (the dedicated search endpoint,
`search_videos`, applies no status filter — see the counterexample). -/
theorem read_endpoints_only_published (store : List Video) :
    (∀ category search limit, ∀ v ∈ get_videos store category search limit,
      v.status = "published") ∧
    (∀ oi store' v, get_video_data store oi = (store', .ok v) → v.status = "published") ∧
    (∀ i l, get_recommended_videos store i = .ok l →
      ∀ v ∈ l, v.status = "published") := by
  refine ⟨fun _ _ _ _ hv => published_of_mem_get_videos hv, ?_, ?_⟩
  · rintro oi store' v h
    rcases oi with _ | i
    · simp only [get_video_data] at h
      cases hh : ((orderUploadDesc store).filter (fun w => w.status == "published")).head? with
      | none =>
        rw [hh] at h
        have h2 := congrArg Prod.snd h
        simp at h2
      | some w =>
        rw [hh] at h
        have h2 := congrArg Prod.snd h
        simp only [ApiResult.ok.injEq] at h2
        have hw : w ∈ (orderUploadDesc store).filter (fun x => x.status == "published") :=
          List.mem_of_mem_head? (by simp [hh])
        rw [← h2]
        simpa using List.of_mem_filter hw
    · simp only [get_video_data] at h
      cases hf : store.find? (fun w => w.id == i && w.status == "published") with
      | none =>
        rw [hf] at h
        have h2 := congrArg Prod.snd h
        simp at h2
      | some w =>
        rw [hf] at h
        have h2 := congrArg Prod.snd h
        simp only [ApiResult.ok.injEq] at h2
        have hp := List.find?_some hf
        simp only [Bool.and_eq_true, beq_iff_eq] at hp
        rw [← h2]
        exact hp.2
  · rintro i l h
    simp only [get_recommended_videos] at h
    cases hf : store.find? (fun w => w.id == i && w.status == "published") with
    | none =>
      rw [hf] at h
      simp at h
    | some cur =>
      rw [hf] at h
      simp only [ListResult.ok.injEq] at h
      subst h
      intro v hv
      split_ifs at hv
      all_goals repeat rcases List.mem_append.mp hv with hv | hv
      all_goals first
        | exact (tier1_pred hv).2.1
        | exact (tier2_pred hv).1
        | exact (tier3_pred hv).1

theorem read_endpoints_only_published_witness :
    vidB.status = "published" :=
  (read_endpoints_only_published demoStore).2.1 none demoStore vidB (by decide)

/-- C1 counterexample: the search endpoint returns a video whose status is
`draft`, so not every video returned by the four read operations is
published. -/
theorem search_videos_returns_draft :
    search_videos [draftVideo] "cats" = .ok [draftVideo] ∧
      draftVideo.status ≠ "published" := by
  exact ⟨by decide, by decide⟩

theorem videoSave_status (now : Nat) (v : Video) : (videoSave now v).status = v.status := by
  unfold videoSave
  cases hvf : v.videoFile <;> dsimp only <;> split_ifs <;> rfl

theorem videoSave_publishedDate (now : Nat) (v : Video) :
    (videoSave now v).publishedDate =
      if v.status = "published" ∧ v.publishedDate = none then some now
      else v.publishedDate := by
  unfold videoSave
  cases hvf : v.videoFile <;> dsimp only <;> split_ifs <;> rfl

theorem videoSave_pd_of_pub {now : Nat} {v : Video} (h1 : v.status = "published")
    (h2 : v.publishedDate = none) : (videoSave now v).publishedDate = some now := by
  rw [videoSave_publishedDate, if_pos ⟨h1, h2⟩]

theorem statusSaveTrace_stable (evs : List (String × Nat)) (v : Video) (t : Nat)
    (h : v.publishedDate = some t) : (statusSaveTrace v evs).publishedDate = some t := by
  induction evs generalizing v with
  | nil => simpa [statusSaveTrace] using h
  | cons e rest ih =>
    have hstep : statusSaveTrace v (e :: rest) =
        statusSaveTrace (videoSave e.2 { v with status := e.1 }) rest := rfl
    rw [hstep]
    refine ih _ ?_
    rw [videoSave_publishedDate]
    simp [h]

theorem statusSaveTrace_publishedDate (v : Video) (evs : List (String × Nat))
    (h : v.publishedDate = none) :
    (statusSaveTrace v evs).publishedDate =
      (evs.find? (fun e => e.1 == "published")).map Prod.snd := by
  induction evs generalizing v with
  | nil => simpa [statusSaveTrace] using h
  | cons e rest ih =>
    have hstep : statusSaveTrace v (e :: rest) =
        statusSaveTrace (videoSave e.2 { v with status := e.1 }) rest := rfl
    rw [hstep]
    by_cases hp : e.1 = "published"
    · have hpd : (videoSave e.2 { v with status := e.1 }).publishedDate = some e.2 := by
        rw [videoSave_publishedDate]
        simp [hp, h]
      rw [statusSaveTrace_stable rest _ e.2 hpd]
      rw [List.find?_cons_of_pos _ (by simp [hp])]
      rfl
    · have hpd : (videoSave e.2 { v with status := e.1 }).publishedDate = none := by
        rw [videoSave_publishedDate]
        simp [hp, h]
      rw [ih _ hpd]
      rw [List.find?_cons_of_neg _ (by simp [hp])]

theorem serializerCreate_published (now nextId : Nat) (r : UploadRequest) :
    (serializerCreate now nextId r).status = "published" ∧
      (serializerCreate now nextId r).publishedDate = some now := by
  constructor
  · simp only [serializerCreate]
    rw [videoSave_status]
  · simp only [serializerCreate]
    apply videoSave_pd_of_pub
    · rfl
    · show (videoSave now _).publishedDate = none
      rw [videoSave_publishedDate]
      simp

/-- C6: the published date of a row is never modified once set; starting
from a null published date, any sequence of saves leaves the published date
equal to the time of the first save with status `published` (and null when
there is none); and a valid upload returns a `published` video whose
published date is the time of the upload. -/
theorem published_date_set_once :
    (∀ (v : Video) (now : Nat), v.publishedDate ≠ none →
      (videoSave now v).publishedDate = v.publishedDate) ∧
    (∀ (v : Video) (evs : List (String × Nat)), v.publishedDate = none →
      (statusSaveTrace v evs).publishedDate =
        (evs.find? (fun e => e.1 == "published")).map Prod.snd) ∧
    (∀ (st : ServerState) (now nextId : Nat) (r : UploadRequest),
      uploadValidate r = [] →
      ∃ v, (upload_video st now nextId r).2 = .created v ∧
        v.status = "published" ∧ v.publishedDate = some now) := by
  refine ⟨?_, statusSaveTrace_publishedDate, ?_⟩
  · intro v now hne
    rw [videoSave_publishedDate, if_neg (fun hand => hne hand.2)]
  · intro st now nextId r hval
    refine ⟨serializerCreate now nextId r, ?_, (serializerCreate_published now nextId r).1,
      (serializerCreate_published now nextId r).2⟩
    simp only [upload_video]
    rw [if_pos (by simp [hval])]

theorem published_date_set_once_witness :
    (statusSaveTrace baseVideo saveEvents).publishedDate =
      (saveEvents.find? (fun e => e.1 == "published")).map Prod.snd :=
  published_date_set_once.2.1 baseVideo saveEvents rfl

theorem video_eq_of_id_eq {store : List Video} (hnd : (store.map Video.id).Nodup)
    {v w : Video} (hv : v ∈ store) (hw : w ∈ store) (h : v.id = w.id) : v = w :=
  List.inj_on_of_nodup_map hnd hv hw h

theorem find?_published {store : List Video} {v : Video} {i : Nat}
    (hnd : (store.map Video.id).Nodup) (hv : v ∈ store) (hid : v.id = i)
    (hp : v.status = "published") :
    store.find? (fun w => w.id == i && w.status == "published") = some v := by
  induction store with
  | nil => cases hv
  | cons a t ih =>
    have hnd2 : (a.id :: t.map Video.id).Nodup := by simpa using hnd
    rcases List.mem_cons.mp hv with rfl | hvt
    · rw [List.find?_cons_of_pos _ (by simp [hid, hp])]
    · have hane : ¬(a.id = i) := by
        intro he
        have hmem : v.id ∈ t.map Video.id := List.mem_map_of_mem Video.id hvt
        rw [hid] at hmem
        exact (List.nodup_cons.mp hnd2).1 (by rw [he]; exact hmem)
      rw [List.find?_cons_of_neg _ (by simp [hane])]
      exact ih (List.nodup_cons.mp hnd2).2 hvt

theorem bumpViews_zero (i : Nat) (st : List Video) : bumpViews i 0 st = st := by
  unfold bumpViews
  have h : ∀ w : Video, (if w.id = i then { w with views := w.views + 0 } else w) = w := by
    intro w
    split_ifs <;> rfl
  calc st.map (fun w => if w.id = i then { w with views := w.views + 0 } else w)
      = st.map id := List.map_congr_left (fun a _ => h a)
    _ = st := List.map_id st

theorem bumpViews_id_map (i n : Nat) (st : List Video) :
    (bumpViews i n st).map Video.id = st.map Video.id := by
  unfold bumpViews
  rw [List.map_map]
  apply List.map_congr_left
  intro a _
  by_cases h : a.id = i <;> simp [h]

theorem bumpViews_mem {st : List Video} {v : Video} {i : Nat} (hv : v ∈ st)
    (hid : v.id = i) (n : Nat) : { v with views := v.views + n } ∈ bumpViews i n st := by
  unfold bumpViews
  have hm := List.mem_map_of_mem
    (fun w => if w.id = i then { w with views := w.views + n } else w) hv
  simpa [hid] using hm

theorem get_video_data_step {store : List Video} {v : Video} {i : Nat}
    (hnd : (store.map Video.id).Nodup) (hv : v ∈ store) (hid : v.id = i)
    (hp : v.status = "published") :
    get_video_data store (some i) =
      (store.map (fun w => if w.id = i then { w with views := w.views + 1 } else w),
        .ok { v with views := v.views + 1 }) := by
  simp only [get_video_data]
  rw [find?_published hnd hv hid hp]
  dsimp only
  congr 1
  apply List.map_congr_left
  intro w hw
  by_cases hwi : w.id = i
  · have hww : w = v := video_eq_of_id_eq hnd hw hv (by rw [hwi, hid])
    subst hww
    simp [hwi]
  · have hwv : ¬(w.id = v.id) := by rw [hid]; exact hwi
    simp [hwi, hwv]

theorem detailN_eq_bumpViews {store : List Video} {v : Video} {i : Nat}
    (hnd : (store.map Video.id).Nodup) (hv : v ∈ store) (hid : v.id = i)
    (hp : v.status = "published") :
    ∀ n, detailN i n store = bumpViews i n store := by
  intro n
  induction n with
  | zero => rw [detailN, bumpViews_zero]
  | succ k ih =>
    rw [detailN, ih]
    have hnd2 : ((bumpViews i k store).map Video.id).Nodup := by
      rw [bumpViews_id_map]; exact hnd
    have hstep := get_video_data_step hnd2 (bumpViews_mem hv hid k)
      (show ({ v with views := v.views + k } : Video).id = i from hid)
      (show ({ v with views := v.views + k } : Video).status = "published" from hp)
    rw [hstep]
    show (bumpViews i k store).map
        (fun w => if w.id = i then { w with views := w.views + 1 } else w) =
      bumpViews i (k + 1) store
    unfold bumpViews
    rw [List.map_map]
    apply List.map_congr_left
    intro a _
    by_cases h : a.id = i
    · simp [h, Nat.add_assoc]
    · simp [h]

/-- C3: with unique row ids, calling the detail endpoint N ≥ 1 times in
sequence on a published video raises exactly that video's stored view
counter by exactly N (every other row is untouched), and each of the N
calls succeeds, returning the video with its incremented counter. -/
theorem get_video_data_increments (store : List Video) (v : Video) (i N : Nat)
    (hnd : (store.map Video.id).Nodup) (hv : v ∈ store) (hid : v.id = i)
    (hp : v.status = "published") (_hN : 1 ≤ N) :
    detailN i N store = bumpViews i N store ∧
      { v with views := v.views + N } ∈ detailN i N store ∧
      ∀ k, k < N → (get_video_data (detailN i k store) (some i)).2 =
        .ok { v with views := v.views + k + 1 } := by
  refine ⟨detailN_eq_bumpViews hnd hv hid hp N, ?_, ?_⟩
  · rw [detailN_eq_bumpViews hnd hv hid hp N]
    exact bumpViews_mem hv hid N
  · intro k _
    rw [detailN_eq_bumpViews hnd hv hid hp k]
    have hnd2 : ((bumpViews i k store).map Video.id).Nodup := by
      rw [bumpViews_id_map]; exact hnd
    have hstep := get_video_data_step hnd2 (bumpViews_mem hv hid k)
      (show ({ v with views := v.views + k } : Video).id = i from hid)
      (show ({ v with views := v.views + k } : Video).status = "published" from hp)
    rw [hstep]

theorem get_video_data_increments_witness :
    detailN 1 2 demoStore = bumpViews 1 2 demoStore ∧
      { vidA with views := vidA.views + 2 } ∈ detailN 1 2 demoStore ∧
      ∀ k, k < 2 → (get_video_data (detailN 1 k demoStore) (some 1)).2 =
        .ok { vidA with views := vidA.views + k + 1 } :=
  get_video_data_increments demoStore vidA 1 2 (by decide) (by decide) rfl rfl
    (by decide)

theorem nodupIds_take_sort_filter (p : Video → Bool) (r : Video → Video → Prop)
    [DecidableRel r] (k : Nat) (store : List Video)
    (h : (store.map Video.id).Nodup) :
    (((List.insertionSort r (store.filter p)).take k).map Video.id).Nodup := by
  have h1 : ((store.filter p).map Video.id).Nodup :=
    (List.Sublist.map Video.id (List.filter_sublist store)).nodup h
  have h2 : ((List.insertionSort r (store.filter p)).map Video.id).Nodup :=
    ((List.perm_insertionSort r (store.filter p)).map Video.id).nodup_iff.mpr h1
  exact (List.Sublist.map Video.id (List.take_sublist k _)).nodup h2

theorem tier1_ids_nodup (store : List Video) (cur : Video) (i : Nat)
    (h : (store.map Video.id).Nodup) : ((tier1 store cur i).map Video.id).Nodup :=
  nodupIds_take_sort_filter _ viewsDesc 5 store h

theorem tier2_ids_nodup (store : List Video) (i : Nat) (sofar : List Video) (k : Nat)
    (h : (store.map Video.id).Nodup) : ((tier2 store i sofar k).map Video.id).Nodup :=
  nodupIds_take_sort_filter _ viewsDesc k store h

theorem tier3_ids_nodup (store : List Video) (i : Nat) (sofar : List Video) (k : Nat)
    (h : (store.map Video.id).Nodup) : ((tier3 store i sofar k).map Video.id).Nodup :=
  nodupIds_take_sort_filter _ uploadDesc k store h

theorem tier1_length_le (store : List Video) (cur : Video) (i : Nat) :
    (tier1 store cur i).length ≤ 5 := by
  unfold tier1
  rw [List.length_take]
  exact min_le_left _ _

theorem tier2_length_le (store : List Video) (i : Nat) (sofar : List Video) (k : Nat) :
    (tier2 store i sofar k).length ≤ k := by
  unfold tier2
  rw [List.length_take]
  exact min_le_left _ _

theorem tier3_length_le (store : List Video) (i : Nat) (sofar : List Video) (k : Nat) :
    (tier3 store i sofar k).length ≤ k := by
  unfold tier3
  rw [List.length_take]
  exact min_le_left _ _

/-- C2: with unique row ids, the recommendation endpoint answers 404 when no
published row has the requested id; otherwise it returns a list of at most
10 videos that never contains the source id and has no duplicate ids, whose
first entries are exactly tier 1 (same category, descending views, at most
5) and whose next entries are exactly tier 2 (popular anywhere), the rest
of the list being exactly tier 3 (most recent upload date, over the rows not
already picked). -/
theorem get_recommended_videos_spec (store : List Video) (videoId : Nat)
    (hnd : (store.map Video.id).Nodup) :
    ((∀ v ∈ store, v.id = videoId → v.status ≠ "published") →
      get_recommended_videos store videoId = .notFound) ∧
    (∀ cur, store.find? (fun v => v.id == videoId && v.status == "published") = some cur →
      ∃ l, get_recommended_videos store videoId = .ok l ∧
        l.length ≤ 10 ∧
        (∀ v ∈ l, v.id ≠ videoId) ∧
        ((l.map Video.id).Nodup) ∧
        l.take (tier1 store cur videoId).length = tier1 store cur videoId ∧
        l.take ((tier1 store cur videoId).length +
            (tier2 store videoId (tier1 store cur videoId)
              (10 - (tier1 store cur videoId).length)).length) =
          tier1 store cur videoId ++
            tier2 store videoId (tier1 store cur videoId)
              (10 - (tier1 store cur videoId).length) ∧
        l.drop ((tier1 store cur videoId).length +
            (tier2 store videoId (tier1 store cur videoId)
              (10 - (tier1 store cur videoId).length)).length) =
          tier3 store videoId
            (tier1 store cur videoId ++
              tier2 store videoId (tier1 store cur videoId)
                (10 - (tier1 store cur videoId).length))
            (10 - (tier1 store cur videoId ++
              tier2 store videoId (tier1 store cur videoId)
                (10 - (tier1 store cur videoId).length)).length)) := by
  constructor
  · intro h
    have hf : store.find? (fun v => v.id == videoId && v.status == "published") = none := by
      rw [List.find?_eq_none]
      intro x hx
      simp only [Bool.and_eq_true, beq_iff_eq, not_and]
      exact fun h1 h2 => (h x hx h1) h2
    simp only [get_recommended_videos]
    rw [hf]
  · intro cur hf
    simp only [get_recommended_videos]
    rw [hf]
    dsimp only
    set t1 := tier1 store cur videoId with ht1
    set t2 := tier2 store videoId t1 (10 - t1.length) with ht2
    have h15 : t1.length ≤ 5 := by rw [ht1]; exact tier1_length_le store cur videoId
    have hg1 : t1.length < 10 := by omega
    rw [if_pos hg1]
    set t3 := tier3 store videoId (t1 ++ t2) (10 - (t1 ++ t2).length) with ht3
    have h2len : t2.length ≤ 10 - t1.length := by
      rw [ht2]; exact tier2_length_le store videoId t1 (10 - t1.length)
    have h3len : t3.length ≤ 10 - (t1 ++ t2).length := by
      rw [ht3]; exact tier3_length_le store videoId (t1 ++ t2) (10 - (t1 ++ t2).length)
    have hlen12 : (t1 ++ t2).length = t1.length + t2.length := List.length_append _ _
    have n1 : (t1.map Video.id).Nodup := by rw [ht1]; exact tier1_ids_nodup store cur videoId hnd
    have n2 : (t2.map Video.id).Nodup := by rw [ht2]; exact tier2_ids_nodup store videoId _ _ hnd
    have n3 : (t3.map Video.id).Nodup := by rw [ht3]; exact tier3_ids_nodup store videoId _ _ hnd
    have d12 : List.Disjoint (t1.map Video.id) (t2.map Video.id) := by
      intro a ha1 ha2
      obtain ⟨x, hx, rfl⟩ := List.mem_map.mp ha2
      rw [ht2] at hx
      exact (tier2_pred hx).2.1 ha1
    have n12 : ((t1 ++ t2).map Video.id).Nodup := by
      rw [List.map_append]
      exact List.nodup_append.mpr ⟨n1, n2, d12⟩
    have d123 : List.Disjoint ((t1 ++ t2).map Video.id) (t3.map Video.id) := by
      intro a ha1 ha2
      obtain ⟨x, hx, rfl⟩ := List.mem_map.mp ha2
      rw [ht3] at hx
      exact (tier3_pred hx).2.1 ha1
    have n123 : (((t1 ++ t2) ++ t3).map Video.id).Nodup := by
      rw [List.map_append]
      exact List.nodup_append.mpr ⟨n12, n3, d123⟩
    have s1 : ∀ v ∈ t1, v.id ≠ videoId := by
      intro v hv
      rw [ht1] at hv
      exact (tier1_pred hv).2.2
    have s2 : ∀ v ∈ t2, v.id ≠ videoId := by
      intro v hv
      rw [ht2] at hv
      exact (tier2_pred hv).2.2
    have s3 : ∀ v ∈ t3, v.id ≠ videoId := by
      intro v hv
      rw [ht3] at hv
      exact (tier3_pred hv).2.2
    by_cases hg2 : (t1 ++ t2).length < 10
    · refine ⟨(t1 ++ t2) ++ t3, by rw [if_pos hg2], ?_, ?_, n123, ?_, ?_, ?_⟩
      · simp only [List.length_append]
        simp only [List.length_append] at h3len
        omega
      · intro v hv
        rcases List.mem_append.mp hv with hv | hv
        · rcases List.mem_append.mp hv with hv | hv
          · exact s1 v hv
          · exact s2 v hv
        · exact s3 v hv
      · rw [List.append_assoc]
        exact List.take_left t1 _
      · rw [← List.length_append t1 t2]
        exact List.take_left (t1 ++ t2) t3
      · rw [← List.length_append t1 t2]
        exact List.drop_left (t1 ++ t2) t3
    · refine ⟨t1 ++ t2, by rw [if_neg hg2], ?_, ?_, n12, ?_, ?_, ?_⟩
      · omega
      · intro v hv
        rcases List.mem_append.mp hv with hv | hv
        · exact s1 v hv
        · exact s2 v hv
      · exact List.take_left t1 t2
      · rw [← List.length_append t1 t2]
        exact List.take_length (t1 ++ t2)
      · have hk0 : 10 - (t1 ++ t2).length = 0 := by
          rw [hlen12]
          omega
        rw [← List.length_append t1 t2, List.drop_length, ht3, hk0]
        rfl

theorem get_recommended_videos_spec_witness :
    ∃ l, get_recommended_videos demoStore 1 = .ok l ∧
      l.length ≤ 10 ∧
      (∀ v ∈ l, v.id ≠ 1) ∧
      ((l.map Video.id).Nodup) ∧
      l.take (tier1 demoStore vidA 1).length = tier1 demoStore vidA 1 ∧
      l.take ((tier1 demoStore vidA 1).length +
          (tier2 demoStore 1 (tier1 demoStore vidA 1)
            (10 - (tier1 demoStore vidA 1).length)).length) =
        tier1 demoStore vidA 1 ++
          tier2 demoStore 1 (tier1 demoStore vidA 1)
            (10 - (tier1 demoStore vidA 1).length) ∧
      l.drop ((tier1 demoStore vidA 1).length +
          (tier2 demoStore 1 (tier1 demoStore vidA 1)
            (10 - (tier1 demoStore vidA 1).length)).length) =
        tier3 demoStore 1
          (tier1 demoStore vidA 1 ++
            tier2 demoStore 1 (tier1 demoStore vidA 1)
              (10 - (tier1 demoStore vidA 1).length))
          (10 - (tier1 demoStore vidA 1 ++
            tier2 demoStore 1 (tier1 demoStore vidA 1)
              (10 - (tier1 demoStore vidA 1).length)).length) :=
  (get_recommended_videos_spec demoStore 1 (by decide)).2 vidA (by decide)

end YoutubeApi
